import Mathlib

/-!
# Verification of the incident-excel-processor SLA engine

Shallow embedding of the core logic of `src/IncidentExcelProcessor.jsx`:
date normalization (`excelSerialToDate`, `parseToDate`, `formatIso`,
`formatInterval`), the priority threshold table (`priorityThresholdMs`),
incident grouping and update ordering (`processRows`), interval/SLA
classification, and the compliance aggregation of `buildWorkbookExcelJS`.

Modelling conventions:
* JS `Date` values are epoch milliseconds (`Int`).  The environment's local
  timezone is a fixed offset `tz` (local wall clock = UTC + `tz` ms); it is an
  explicit parameter wherever the source implicitly uses the host timezone.
* JS numbers in cells are exact rationals (`ℚ`); `new Date(ms)` clips and
  truncates its argument toward zero as `TimeClip` does.
* The host `Date.parse` fallback (implementation-defined beyond ISO strings)
  is an explicit function parameter `dp : String → Option Int`.
* `String.prototype.localeCompare` is modelled as code-point lexicographic
  comparison (a conforming collation); `toUpperCase`/`toLowerCase`/`trim`
  are modelled on ASCII via character-list maps.
* `toFixed(1)` on the small nonnegative quotients appearing here is modelled
  as exact rounding to tenths with half rounded up.
-/

/-- JS whitespace test for `trim` / `\s` (ASCII portion). -/
def isJsWs (c : Char) : Bool :=
  c = ' ' ∨ c = '\t' ∨ c = '\n' ∨ c = '\r'

/-- `String.prototype.trim`, over character lists. -/
def jsTrim (s : String) : String :=
  ⟨((s.toList.dropWhile isJsWs).reverse.dropWhile isJsWs).reverse⟩

/-- `String.prototype.toUpperCase` (ASCII). -/
def upperS (s : String) : String :=
  ⟨s.toList.map Char.toUpper⟩

/-- `String.prototype.toLowerCase` (ASCII). -/
def lowerS (s : String) : String :=
  ⟨s.toList.map Char.toLower⟩

/-- `String.prototype.startsWith`, over character lists. -/
def startsWithS (s pre : String) : Bool :=
  pre.toList.isPrefixOf s.toList

/-- Infix test over character lists. -/
def listInfix (sub : List Char) : List Char → Bool
  | [] => sub.isEmpty
  | c :: t => sub.isPrefixOf (c :: t) || listInfix sub t

/-- `String.prototype.includes`, over character lists. -/
def includesS (s sub : String) : Bool :=
  listInfix sub.toList s.toList

/-- Remove all whitespace characters (the `replace(/\s+/g, '')` step of
`normalizeKey`). -/
def stripWs (s : String) : String :=
  ⟨s.toList.filter (fun c => !isJsWs c)⟩

/-- `String.prototype.replace(' ', 'T')`: replace the first literal space. -/
def replaceFirstSpaceChars : List Char → List Char
  | [] => []
  | ' ' :: t => 'T' :: t
  | c :: t => c :: replaceFirstSpaceChars t

def replaceFirstSpace (s : String) : String :=
  ⟨replaceFirstSpaceChars s.toList⟩

/-- Numeric value of a digit run (`parseInt` on an all-digit string). -/
def digitsVal (l : List Char) : Nat :=
  l.foldl (fun a c => a * 10 + (c.toNat - 48)) 0

/-- Two-digit zero padding (`String(n).padStart(2, '0')`). -/
def pad2 (n : Nat) : String :=
  if n < 10 then "0" ++ toString n else toString n

/-! ## Gregorian civil-calendar arithmetic

JS `Date` field reconstruction (`getFullYear` … `getSeconds`) and field-based
construction (`new Date(y, m, d, h, mi, s)` with month/day rollover) reduce to
the standard days-from-civil / civil-from-days algorithms. -/

/-- Days since the Unix epoch of the civil date `(y, m, d)` with `m ∈ 1..12`
(`d` may be out of range: extra days are added linearly, as in `MakeDay`). -/
def daysFromCivil (y m d : Int) : Int :=
  let y' := if m ≤ 2 then y - 1 else y
  let era := y'.fdiv 400
  let yoe := y' - era * 400
  let mp : Int := if m > 2 then m - 3 else m + 9
  let doy := (153 * mp + 2).fdiv 5 + d - 1
  let doe := yoe * 365 + yoe.fdiv 4 - yoe.fdiv 100 + doy
  era * 146097 + doe - 719468

/-- Civil date `(year, month 1..12, day 1..31)` of a day count since the
Unix epoch. -/
def civilFromDays (z0 : Int) : Int × Nat × Nat :=
  let z := z0 + 719468
  let era := z.fdiv 146097
  let doe := (z.fmod 146097).toNat
  let yoe := (doe - doe / 1460 + doe / 36524 - doe / 146096) / 365
  let y : Int := (yoe : Int) + era * 400
  let doy := doe - (365 * yoe + yoe / 4 - yoe / 100)
  let mp := (5 * doy + 2) / 153
  let d := doy - (153 * mp + 2) / 5 + 1
  let m := if mp < 10 then mp + 3 else mp - 9
  (if m ≤ 2 then y + 1 else y, m, d)

/-- Wall-clock fields of a timestamp. -/
structure DateFields where
  year : Int
  month : Nat
  day : Nat
  hour : Nat
  minute : Nat
  second : Nat
  deriving DecidableEq, Repr

/-- Decompose epoch milliseconds into calendar fields (UTC). -/
def msToFields (ms : Int) : DateFields :=
  let days := ms.fdiv 86400000
  let rem := (ms.fmod 86400000).toNat
  let c := civilFromDays days
  { year := c.1, month := c.2.1, day := c.2.2
    hour := rem / 3600000, minute := rem % 3600000 / 60000
    second := rem % 60000 / 1000 }

/-- Epoch milliseconds of calendar fields, JS-style: 0-based month `mo0`
with arbitrary rollover (`MakeDay`/`MakeTime`/`MakeDate`). -/
def fieldsToMs (y mo0 d h mi s : Int) : Int :=
  let ym := y + mo0.fdiv 12
  let mn := mo0.fmod 12
  daysFromCivil ym (mn + 1) d * 86400000 + h * 3600000 + mi * 60000 + s * 1000

/-! ## Cell values -/

/-- A spreadsheet cell as seen by the JS code: absent/undefined, a string, a
number, or an already-structured (valid) `Date`. -/
inductive CellVal where
  | empty : CellVal
  | str : String → CellVal
  | num : ℚ → CellVal
  | date : Int → CellVal
  deriving DecidableEq, Repr

/-- JS truthiness test (falsy cells: `undefined`, `''`, `0`). -/
def cellFalsy : CellVal → Bool
  | .empty => true
  | .str s => s = ""
  | .num q => q = 0
  | .date _ => false

/-- JS number-to-string; exact for integral values (the only values the
theorems below evaluate), non-integral values rendered as a fraction. -/
def ratToString (q : ℚ) : String :=
  if q.den = 1 then toString q.num else toString q.num ++ "/" ++ toString q.den

/-- `String(v)` for a cell value.  `Date` rendering is host-dependent and is
given a fixed placeholder shape here; no theorem depends on it. -/
def cellToString : CellVal → String
  | .empty => "undefined"
  | .str s => s
  | .num q => ratToString q
  | .date ms => "Date(" ++ toString ms ++ ")"

/-- `x || ''` on a cell. -/
def cellOrEmpty (c : CellVal) : CellVal :=
  if cellFalsy c then .str "" else c

/-- `(x || '').toString()`. -/
def cellOrEmptyStr (c : CellVal) : String :=
  cellToString (cellOrEmpty c)

/-! ## DateNormalizer -/

/-- Truncation toward zero of a rational (ECMAScript `ToInteger`): truncated
division of the reduced numerator by the denominator. -/
def truncQ (q : ℚ) : Int :=
  Int.tdiv q.num (q.den : Int)

/-- `excelSerialToDate`: `new Date((serial - 25569) * 86400 * 1000)`,
`none` when the resulting `Date` is invalid (`TimeClip` range). -/
def excelSerialToDate (serial : ℚ) : Option Int :=
  let ms : ℚ := (serial - 25569) * 86400000
  if |ms| ≤ 8640000000000000 then some (truncQ ms) else none

/-- Seconds part of the strict pattern: `(?::(\d{2}))?`.  A `':'` must be
followed by exactly two digits, otherwise the whole match fails. -/
def strictSec : List Char → Option (Nat × List Char)
  | ':' :: rest =>
      let p := rest.span Char.isDigit
      if p.1.length = 2 then some (digitsVal p.1, p.2) else none
  | r => some (0, r)

/-- Optional AM/PM marker: `(AM|PM|am|pm)?` (`some true` = PM). -/
def strictAmPm : List Char → Option Bool × List Char
  | 'A' :: 'M' :: r => (some false, r)
  | 'P' :: 'M' :: r => (some true, r)
  | 'a' :: 'm' :: r => (some false, r)
  | 'p' :: 'm' :: r => (some true, r)
  | r => (none, r)

/-- The strict day-sep-month-sep-year, `h:mm[:ss][ AM/PM]` matcher of
`parseToDate` (separators slash or dash, then one of space, comma, `T`),
yielding the epoch ms of `new Date(year, month-1, day, hour, minute, second)`
built in local time (offset `tz`). -/
def strictParse (tz : Int) (s : String) : Option Int := do
  let (dayDs, r1) := s.toList.span Char.isDigit
  if dayDs.length < 1 ∨ 2 < dayDs.length then none else
  match r1 with
  | sep1 :: r2 =>
    if sep1 ≠ '/' ∧ sep1 ≠ '-' then none else
    let (monDs, r3) := r2.span Char.isDigit
    if monDs.length < 1 ∨ 2 < monDs.length then none else
    match r3 with
    | sep2 :: r4 =>
      if sep2 ≠ '/' ∧ sep2 ≠ '-' then none else
      let (yrDs, r5) := r4.span Char.isDigit
      if yrDs.length < 2 ∨ 4 < yrDs.length then none else
      match r5 with
      | sepT :: r6 =>
        if sepT ≠ ' ' ∧ sepT ≠ ',' ∧ sepT ≠ 'T' then none else
        let (hrDs, r7) := r6.span Char.isDigit
        if hrDs.length < 1 ∨ 2 < hrDs.length then none else
        match r7 with
        | ':' :: r8 =>
          let (minDs, r9) := r8.span Char.isDigit
          if minDs.length ≠ 2 then none else
          match strictSec r9 with
          | none => none
          | some (sec, r10) =>
            let r11 := r10.dropWhile isJsWs
            let ap := strictAmPm r11
            match ap.2 with
            | [] =>
              let day : Int := digitsVal dayDs
              let month : Int := (digitsVal monDs : Int) - 1
              let year0 := digitsVal yrDs
              let year : Int := if year0 < 100 then (year0 : Int) + 2000 else year0
              let hour0 := digitsVal hrDs
              let hour : Nat :=
                match ap.1 with
                | some true => if hour0 < 12 then hour0 + 12 else hour0
                | some false => if hour0 = 12 then 0 else hour0
                | none => hour0
              some (fieldsToMs year month day hour (digitsVal minDs) sec - tz)
            | _ :: _ => none
        | _ => none
      | [] => none
    | [] => none
  | [] => none

/-- `parseToDate`: total conversion of a cell to an optional timestamp.
`tz` is the environment's UTC offset, `dp` the host `Date.parse` fallback
(applied after replacing the first space by `'T'`). -/
def parseToDate (tz : Int) (dp : String → Option Int) : CellVal → Option Int
  | .empty => none
  | .date ms => some ms
  | .num q => excelSerialToDate q
  | .str s =>
      if s = "" then none
      else
        match strictParse tz (jsTrim s) with
        | some ms => some ms
        | none => dp (replaceFirstSpace (jsTrim s))

/-- `formatIso`: `YYYY-MM-DD HH:MM:SS` in local wall-clock fields. -/
def formatIso (tz : Int) (ms : Int) : String :=
  let f := msToFields (ms + tz)
  toString f.year ++ "-" ++ pad2 f.month ++ "-" ++ pad2 f.day ++ " " ++
    pad2 f.hour ++ ":" ++ pad2 f.minute ++ ":" ++ pad2 f.second

/-- `formatInterval`: `"{d}d {h}h {m}m {s}s"` of the absolute value of a
millisecond duration. -/
def formatInterval (ms : Int) : String :=
  let totalSeconds := ms.natAbs / 1000
  let days := totalSeconds / 86400
  let rem := totalSeconds % 86400
  let hours := rem / 3600
  let rem2 := rem % 3600
  let minutes := rem2 / 60
  let seconds := rem2 % 60
  toString days ++ "d " ++ toString hours ++ "h " ++ toString minutes ++ "m " ++
    toString seconds ++ "s"

/-! ## PriorityThresholdTable -/

/-- The regex fallback `^P(\d)` of `priorityThresholdMs`: the captured digit
character, on the trimmed uppercased label. -/
def pDigitMatch : List Char → Option Char
  | 'P' :: c :: _ => if c.isDigit then some c else none
  | _ => none

/-- `priorityThresholdMs`: SLA threshold (ms) for a priority cell.  Empty or
non-string labels default to 8h; otherwise prefix tests on the trimmed,
uppercased label, then the `^P(\d)` fallback through the same table. -/
def priorityThresholdMs (p : CellVal) : Int :=
  match p with
  | .str s =>
      if s = "" then 8 * 3600 * 1000
      else
        let u := upperS (jsTrim s)
        if startsWithS u "P1" then 1 * 3600 * 1000
        else if startsWithS u "P2" then 3 * 3600 * 1000
        else if startsWithS u "P3" then 4 * 3600 * 1000
        else if startsWithS u "P4" then 8 * 3600 * 1000
        else
          match pDigitMatch u.toList with
          | some c =>
              if c = '1' then 1 * 3600 * 1000
              else if c = '2' then 3 * 3600 * 1000
              else if c = '3' then 4 * 3600 * 1000
              else if c = '4' then 8 * 3600 * 1000
              else 8 * 3600 * 1000
          | none => 8 * 3600 * 1000
  | _ => 8 * 3600 * 1000

/-! ## IncidentGrouper -/

/-- One input row: an ordered mapping of column name to cell value. -/
structure RawRecord where
  cells : List (String × CellVal)
  deriving DecidableEq, Repr

/-- JS property access `r[k]` (`undefined` for a missing key). -/
def getCell (r : RawRecord) (k : String) : CellVal :=
  match r.cells.find? (fun e => e.1 = k) with
  | some e => e.2
  | none => .empty

/-- `normalizeKey`: exact match ignoring whitespace and case, else substring
match ignoring case, else `none`. -/
def normalizeKey (keys : List String) (target : String) : Option String :=
  match keys.find? (fun k => stripWs (lowerS k) = stripWs (lowerS target)) with
  | some k => some k
  | none => keys.find? (fun k => includesS (lowerS k) (lowerS target))

/-- The five resolved column names. -/
structure ColKeys where
  number : String
  priority : String
  state : String
  opened : String
  updated : String
  deriving DecidableEq, Repr

/-- Column resolution against the first record's keys, with hard-coded
defaults (`normalizeKey(allKeys, t) || t`). -/
def resolveKeys (rows : List RawRecord) : ColKeys :=
  let allKeys := match rows with
    | [] => []
    | r :: _ => r.cells.map (fun e => e.1)
  { number := (normalizeKey allKeys "Number").getD "Number"
    priority := (normalizeKey allKeys "Priority").getD "Priority"
    state := (normalizeKey allKeys "State").getD "State"
    opened := (normalizeKey allKeys "Opened").getD "Opened"
    updated := (normalizeKey allKeys "Updated").getD "Updated" }

/-- The trimmed incident key of a record: `(r[keyNumber] || '').toString().trim()`. -/
def recNumber (ks : ColKeys) (r : RawRecord) : String :=
  jsTrim (cellOrEmptyStr (getCell r ks.number))

/-- Per-incident accumulator built during grouping. -/
structure GroupInfo where
  priority : CellVal
  state : CellVal
  openedCands : List CellVal
  updatedCands : List CellVal
  deriving DecidableEq, Repr

/-- A guard cell is pushed when it is neither `undefined`, `null` nor `''`. -/
def cellPresent : CellVal → Bool
  | .empty => false
  | .str s => s ≠ ""
  | _ => true

/-- Split an `Updated` string cell on runs of `;`, `,`, newline, trim the
pieces and drop empties. -/
def splitUpdated (s : String) : List String :=
  let isSep : Char → Bool := fun c => c = ';' ∨ c = ',' ∨ c = '\n'
  let pieces := s.toList.foldr
    (fun c acc =>
      if isSep c then [] :: acc
      else match acc with
        | h :: t => (c :: h) :: t
        | [] => [[c]])
    [[]]
  (pieces.map (fun l => jsTrim ⟨l⟩)).filter (fun p => p ≠ "")

/-- The update-candidate cells contributed by one record. -/
def updatedCandsOf (ks : ColKeys) (r : RawRecord) : List CellVal :=
  let c := getCell r ks.updated
  if cellPresent c then
    match c with
    | .str s => (splitUpdated s).map CellVal.str
    | other => [other]
  else []

/-- The opened-candidate cells contributed by one record. -/
def openedCandsOf (ks : ColKeys) (r : RawRecord) : List CellVal :=
  let c := getCell r ks.opened
  if cellPresent c then [c] else []

/-- Add one record's candidates to an existing group (its `priority` and
`state` are left untouched). -/
def addCands (ks : ColKeys) (r : RawRecord) (g : GroupInfo) : GroupInfo :=
  { g with
    openedCands := g.openedCands ++ openedCandsOf ks r
    updatedCands := g.updatedCands ++ updatedCandsOf ks r }

/-- The group created on first sight of a key:
`{priority: r[keyPriority] || '', state: r[keyState] || '', ...empty}`. -/
def mkGroup (ks : ColKeys) (r : RawRecord) : GroupInfo :=
  { priority := cellOrEmpty (getCell r ks.priority)
    state := cellOrEmpty (getCell r ks.state)
    openedCands := []
    updatedCands := [] }

/-- One grouping step: skip blank keys; create the group if absent, then push
this record's candidates.  The association list preserves insertion order
(JS object key order for the non-index keys used here). -/
def groupStep (ks : ColKeys) (acc : List (String × GroupInfo)) (r : RawRecord) :
    List (String × GroupInfo) :=
  let num := recNumber ks r
  if num = "" then acc
  else
    let acc' := if acc.any (fun e => e.1 = num) then acc else acc ++ [(num, mkGroup ks r)]
    acc'.map (fun e => if e.1 = num then (e.1, addCands ks r e.2) else e)

/-- The grouping pass of `processRows`. -/
def groupFold (ks : ColKeys) (rows : List RawRecord) : List (String × GroupInfo) :=
  rows.foldl (groupStep ks) []

/-- An update event: original cell content and optional parsed timestamp. -/
structure UpdateEvent where
  raw : CellVal
  date : Option Int
  deriving DecidableEq, Repr

/-- Code-point lexicographic "less or equal" on character lists (the model
of `localeCompare`). -/
def lexLe : List Char → List Char → Bool
  | [], _ => true
  | _ :: _, [] => false
  | a :: as, b :: bs =>
      if a.toNat < b.toNat then true
      else if b.toNat < a.toNat then false
      else lexLe as bs

/-- Code-point lexicographic comparison of strings. -/
def strLexLe (a b : String) : Bool :=
  lexLe a.toList b.toList

/-- `lexLe` is total. -/
lemma lexLe_total : ∀ l1 l2 : List Char, lexLe l1 l2 = true ∨ lexLe l2 l1 = true := by
  intro l1
  induction l1 with
  | nil => intro l2; left; rfl
  | cons a as ih =>
      intro l2
      cases l2 with
      | nil => right; rfl
      | cons b bs =>
          unfold lexLe
          by_cases hab : a.toNat < b.toNat
          · left; simp [hab]
          · by_cases hba : b.toNat < a.toNat
            · right; simp [hba]
            · rcases ih bs with h | h <;> simp [hab, hba, h]

/-- `lexLe` is transitive. -/
lemma lexLe_trans : ∀ l1 l2 l3 : List Char,
    lexLe l1 l2 = true → lexLe l2 l3 = true → lexLe l1 l3 = true := by
  intro l1
  induction l1 with
  | nil => intro l2 l3 _ _; rfl
  | cons a as ih =>
      intro l2 l3 h12 h23
      cases l2 with
      | nil => exact absurd h12 (by simp [lexLe])
      | cons b bs =>
          cases l3 with
          | nil => exact absurd h23 (by simp [lexLe])
          | cons c cs =>
              unfold lexLe at h12 h23 ⊢
              by_cases hab : a.toNat < b.toNat <;> by_cases hbc : b.toNat < c.toNat <;>
                by_cases hba : b.toNat < a.toNat <;> by_cases hcb : c.toNat < b.toNat <;>
                  simp_all <;>
                    first
                      | omega
                      | (have hac : a.toNat < c.toNat := by omega
                         simp [hac])
                      | (have hac : ¬a.toNat < c.toNat := by omega
                         have hca : ¬c.toNat < a.toNat := by omega
                         have hbsXs := ih bs cs
                         simp_all)

/-- The sort comparator of `processRows` as a boolean "less or equal":
parsed events by timestamp, parsed before unparsed, unparsed among
themselves by (locale-)lexicographic comparison of `String(raw)`. -/
def updLeB (a b : UpdateEvent) : Bool :=
  match a.date, b.date with
  | some x, some y => x ≤ y
  | some _, none => true
  | none, some _ => false
  | none, none => strLexLe (cellToString a.raw) (cellToString b.raw)

/-- The comparator as a relation, for sortedness statements. -/
def updLe (a b : UpdateEvent) : Prop := updLeB a b = true

instance : DecidableRel updLe := fun _ _ => inferInstanceAs (Decidable (_ = true))

instance : IsTotal UpdateEvent updLe where
  total a b := by
    unfold updLe updLeB
    rcases a with ⟨ra, _ | x⟩ <;> rcases b with ⟨rb, _ | y⟩ <;> simp
    · exact lexLe_total _ _
    · exact Int.le_total x y

instance : IsTrans UpdateEvent updLe where
  trans a b c := by
    unfold updLe updLeB
    rcases a with ⟨ra, _ | x⟩ <;> rcases b with ⟨rb, _ | y⟩ <;>
      rcases c with ⟨rc, _ | z⟩ <;> simp
    · exact lexLe_trans _ _ _
    · exact Int.le_trans

/-- Map the update candidates through `parseToDate` and sort with the
comparator (JS `Array.prototype.sort`). -/
def sortUpdates (tz : Int) (dp : String → Option Int) (cands : List CellVal) :
    List UpdateEvent :=
  List.insertionSort updLe (cands.map (fun c => ⟨c, parseToDate tz dp c⟩))

/-- `openedDate`: earliest parsable opened-candidate (strict `<`, first seen
wins ties); unparsable candidates are skipped. -/
def pickOpened (tz : Int) (dp : String → Option Int) (cands : List CellVal) :
    Option Int :=
  cands.foldl
    (fun acc c =>
      match parseToDate tz dp c with
      | none => acc
      | some d =>
          match acc with
          | none => some d
          | some o => if d < o then some d else acc)
    none

/-- A grouped incident. -/
structure IncidentGroup where
  number : String
  priority : CellVal
  state : CellVal
  openedDate : Option Int
  updates : List UpdateEvent
  deriving DecidableEq, Repr

/-- All grouped incidents of an input, in group-creation order. -/
def incidentsOf (tz : Int) (dp : String → Option Int) (rows : List RawRecord) :
    List IncidentGroup :=
  (groupFold (resolveKeys rows) rows).map
    (fun e =>
      { number := e.1
        priority := e.2.priority
        state := e.2.state
        openedDate := pickOpened tz dp e.2.openedCands
        updates := sortUpdates tz dp e.2.updatedCands })

/-- `maxUpdates`: the dataset's column fan-out width. -/
def maxUpdatesOf (incs : List IncidentGroup) : Nat :=
  incs.foldl (fun m g => max m g.updates.length) 0

/-! ## IntervalCalculator and SlaClassifier (the row-building loop) -/

/-- One interval slot of an output row: the three cells written for index
`i` (ordinal Updated column, `Interval i+1`, `Made SLA i+1`). -/
structure IntervalSlot where
  updText : String
  intervalText : String
  slaText : String
  deriving DecidableEq, Repr

/-- The previous endpoint of interval `i`: `openedDate` for `i = 0`, else the
parsed date of update `i-1` (missing or unparsed gives `none`). -/
def prevEndpoint (g : IncidentGroup) (i : Nat) : Option Int :=
  if i = 0 then g.openedDate
  else
    match g.updates.get? (i - 1) with
    | some u => u.date
    | none => none

/-- The current endpoint of interval `i`: the parsed date of update `i`. -/
def currEndpoint (g : IncidentGroup) (i : Nat) : Option Int :=
  match g.updates.get? i with
  | some u => u.date
  | none => none

/-- The three cells written by loop iteration `i` of `processRows`. -/
def slotOf (tz : Int) (thr : Int) (g : IncidentGroup) (i : Nat) : IntervalSlot :=
  let updText :=
    match g.updates.get? i with
    | some u =>
        match u.date with
        | some d => formatIso tz d
        | none => cellToString u.raw
    | none => ""
  match prevEndpoint g i, currEndpoint g i with
  | some p, some c =>
      { updText := updText
        intervalText := formatInterval (c - p)
        slaText := if c - p ≤ thr then "Y" else "N" }
  | _, _ => { updText := updText, intervalText := "", slaText := "" }

/-- The per-interval verdicts pushed into `slaValues`, in loop order. -/
def slaVals (thr : Int) (g : IncidentGroup) (n : Nat) : List String :=
  (List.range n).filterMap
    (fun i =>
      match prevEndpoint g i, currEndpoint g i with
      | some p, some c => some (if c - p ≤ thr then "Y" else "N")
      | _, _ => none)

/-- The aggregate `Made SLA` verdict of an incident. -/
def aggVerdict (vs : List String) : String :=
  if vs = [] then ""
  else if vs.all (fun v => v = "Y") then "Y"
  else if vs.any (fun v => v = "N") then "N"
  else ""

/-- One output row of Sheet 1. -/
structure OutRow where
  number : String
  priority : CellVal
  state : CellVal
  openedDateStr : String
  slots : List IntervalSlot
  madeSLA : String
  deriving DecidableEq, Repr

/-- Build one output row from a grouped incident, with `maxU` fanned-out
interval slots. -/
def buildRow (tz : Int) (maxU : Nat) (g : IncidentGroup) : OutRow :=
  let thr := priorityThresholdMs g.priority
  { number := g.number
    priority := g.priority
    state := g.state
    openedDateStr :=
      match g.openedDate with
      | some d => formatIso tz d
      | none => ""
    slots := (List.range maxU).map (slotOf tz thr g)
    madeSLA := aggVerdict (slaVals thr g maxU) }

/-- `getOrdinalSuffix`. -/
def getOrdinalSuffix (n : Nat) : String :=
  let j := n % 10
  let k := n % 100
  if 11 ≤ k ∧ k ≤ 13 then "th"
  else if j = 1 then "st"
  else if j = 2 then "nd"
  else if j = 3 then "rd"
  else "th"

/-- The output header list. -/
def mkHeaders (maxU : Nat) : List String :=
  ["Number", "Priority", "State", "Opened Date"] ++
    (List.range maxU).flatMap
      (fun i =>
        [toString (i + 1) ++ getOrdinalSuffix (i + 1) ++ " Updated",
         "Interval " ++ toString (i + 1),
         "Made SLA " ++ toString (i + 1)]) ++
    ["Made SLA"]

/-- The full result of `processRows`: headers and data rows. -/
structure Processed where
  headers : List String
  data : List OutRow
  deriving DecidableEq, Repr

/-- `processRows`: group, compute the fan-out width, and build every row. -/
def processRows (tz : Int) (dp : String → Option Int) (rows : List RawRecord) :
    Processed :=
  if rows = [] then { headers := [], data := [] }
  else
    let incs := incidentsOf tz dp rows
    let maxU := maxUpdatesOf incs
    { headers := mkHeaders maxU, data := incs.map (buildRow tz maxU) }

/-! ## ComplianceAggregator (`buildWorkbookExcelJS`, Sheet 2) -/

/-- The four canonical priority buckets, in sheet order. -/
def prioritiesList : List String :=
  ["P1 - Critical", "P2 - High", "P3 - Medium", "P4 - Low"]

/-- `(r['Priority'] || '').toString().trim()`. -/
def prOf (r : OutRow) : String :=
  jsTrim (cellOrEmptyStr r.priority)

/-- `String(r['Made SLA'] || '').trim().toUpperCase()`. -/
def madeFlag (r : OutRow) : String :=
  upperS (jsTrim r.madeSLA)

/-- The leading token of a bucket label (`pp.split(' ')[0]`). -/
def headTok (pp : String) : String :=
  ⟨pp.toList.takeWhile (fun c => c ≠ ' ')⟩

/-- The bucket a processed row is assigned to: the first bucket whose leading
token is a case-insensitive prefix of the row's trimmed priority. -/
def bucketOf (r : OutRow) : Option String :=
  prioritiesList.find? (fun pp => startsWithS (upperS (prOf r)) (upperS (headTok pp)))

/-- Per-bucket counters. -/
structure PCounts where
  y : Nat
  n : Nat
  total : Nat
  deriving DecidableEq, Repr

/-- Counters for all four buckets. -/
structure AllCounts where
  p1 : PCounts
  p2 : PCounts
  p3 : PCounts
  p4 : PCounts
  deriving DecidableEq, Repr

def pcZero : PCounts := { y := 0, n := 0, total := 0 }

def acZero : AllCounts := { p1 := pcZero, p2 := pcZero, p3 := pcZero, p4 := pcZero }

/-- Count one incident into a bucket: `total++`, then `Y++` on verdict `Y`,
else `N++` on verdict `N`. -/
def bumpPC (pc : PCounts) (made : String) : PCounts :=
  if made = "Y" then { pc with total := pc.total + 1, y := pc.y + 1 }
  else if made = "N" then { pc with total := pc.total + 1, n := pc.n + 1 }
  else { pc with total := pc.total + 1 }

/-- Apply `bumpPC` to the bucket named `b`. -/
def bumpCounts (acc : AllCounts) (b : String) (made : String) : AllCounts :=
  if b = "P1 - Critical" then { acc with p1 := bumpPC acc.p1 made }
  else if b = "P2 - High" then { acc with p2 := bumpPC acc.p2 made }
  else if b = "P3 - Medium" then { acc with p3 := bumpPC acc.p3 made }
  else if b = "P4 - Low" then { acc with p4 := bumpPC acc.p4 made }
  else acc

/-- One counting step of the compliance loop (rows with no bucket are
silently dropped). -/
def countStep (acc : AllCounts) (r : OutRow) : AllCounts :=
  match bucketOf r with
  | some b => bumpCounts acc b (madeFlag r)
  | none => acc

/-- `countsByPriority` after the loop over all processed rows. -/
def countsOf (rows : List OutRow) : AllCounts :=
  rows.foldl countStep acZero

/-- The bucket counters selected by label. -/
def getBucket (acc : AllCounts) (b : String) : PCounts :=
  if b = "P1 - Critical" then acc.p1
  else if b = "P2 - High" then acc.p2
  else if b = "P3 - Medium" then acc.p3
  else if b = "P4 - Low" then acc.p4
  else pcZero

/-- The grand totals: the reduce over the four buckets. -/
def totalsOf (acc : AllCounts) : PCounts :=
  { y := acc.p1.y + acc.p2.y + acc.p3.y + acc.p4.y
    n := acc.p1.n + acc.p2.n + acc.p3.n + acc.p4.n
    total := acc.p1.total + acc.p2.total + acc.p3.total + acc.p4.total }

/-- `(y / total * 100).toFixed(1)` in tenths of a percent: exact rounding of
`y * 1000 / total` to the nearest integer, half up. -/
def roundTenths (y total : Nat) : Nat :=
  (y * 1000 * 2 + total) / (total * 2)

/-- Render tenths of a percent as the `"X.Y%"` display string. -/
def pctString (t : Nat) : String :=
  toString (t / 10) ++ "." ++ toString (t % 10) ++ "%"

/-- One row of the compliance summary table (the cells of `compAOA`). -/
structure CompRow where
  label : String
  total : Nat
  within : Nat
  pct : String
  exceeding : Nat
  flag : String
  deriving DecidableEq, Repr

/-- The per-bucket summary row: percentage against the grand total, and the
compliance flag only for the P1/P2 buckets (`'Y'` when the percentage is
below 95). -/
def bucketRow (acc : AllCounts) (totals : PCounts) (p : String) : CompRow :=
  let pc := getBucket acc p
  let pctDisplay :=
    if 0 < totals.total then pctString (roundTenths pc.y totals.total) else ""
  let flag :=
    if (startsWithS p "P1" ∨ startsWithS p "P2") ∧ 0 < totals.total then
      if pc.y * 100 < 95 * totals.total then "Y" else "N"
    else ""
  { label := p, total := pc.total, within := pc.y, pct := pctDisplay
    exceeding := pc.n, flag := flag }

/-- The final `Total` row. -/
def totalRowOf (totals : PCounts) : CompRow :=
  let pctDisplay :=
    if 0 < totals.total then pctString (roundTenths totals.y totals.total)
    else pctString 0
  { label := "Total", total := totals.total, within := totals.y
    pct := pctDisplay, exceeding := totals.n, flag := "" }

/-- The data rows of the Compliance and Credit sheet: one row per bucket in
order, then the `Total` row. -/
def complianceRows (rows : List OutRow) : List CompRow :=
  let acc := countsOf rows
  let totals := totalsOf acc
  prioritiesList.map (bucketRow acc totals) ++ [totalRowOf totals]

/-! ## Spec-side definitions

These definitions transcribe the specification's wording (not the source) and
exist only to be compared with the source-derived definitions above. -/

/-- Spec wording: the bucket's within-SLA count — the number of bucketed rows
whose aggregate verdict is `Y`. -/
def withinCountSpec (rows : List OutRow) (p : String) : Nat :=
  rows.countP (fun r => bucketOf r = some p ∧ madeFlag r = "Y")

/-- Spec wording: the exceeding-SLA count of a bucket. -/
def exceedCountSpec (rows : List OutRow) (p : String) : Nat :=
  rows.countP (fun r => bucketOf r = some p ∧ madeFlag r = "N")

/-- Spec wording: a bucket's total incident count. -/
def totalCountSpec (rows : List OutRow) (p : String) : Nat :=
  rows.countP (fun r => bucketOf r = some p)

/-- Spec wording: the grand total incident count across all buckets. -/
def grandCountSpec (rows : List OutRow) : Nat :=
  rows.countP (fun r => (bucketOf r).isSome)

/-- Spec wording (claim C3): the first non-empty priority value seen among an
incident's records, in input order. -/
def firstNonEmptyPrioritySpec (ks : ColKeys) (rows : List RawRecord) (num : String) :
    Option CellVal :=
  ((rows.filter (fun r => recNumber ks r = num)).find?
      (fun r => !cellFalsy (getCell r ks.priority))).map
    (fun r => getCell r ks.priority)

/-- Spec wording (claim C5): the threshold table keyed on a case-insensitive
prefix of the trimmed label. -/
def thresholdForSpec (p : CellVal) : Int :=
  match p with
  | .str s =>
      let u := upperS (jsTrim s)
      if startsWithS u "P1" then 1 * 3600 * 1000
      else if startsWithS u "P2" then 3 * 3600 * 1000
      else if startsWithS u "P3" then 4 * 3600 * 1000
      else if startsWithS u "P4" then 8 * 3600 * 1000
      else 8 * 3600 * 1000
  | _ => 8 * 3600 * 1000

/-- The source-side priority of the group stored for `num`, if any. -/
def groupPriorityOf (tz : Int) (dp : String → Option Int) (rows : List RawRecord)
    (num : String) : Option CellVal :=
  ((incidentsOf tz dp rows).find? (fun g => g.number = num)).map (fun g => g.priority)

/-! ## Helper lemmas -/

/-- Every SLA threshold in the table is positive. -/
lemma priorityThresholdMs_pos (p : CellVal) : 0 < priorityThresholdMs p := by
  unfold priorityThresholdMs
  rcases p with _ | s | q | d
  · norm_num
  · dsimp only
    split_ifs <;> try norm_num
    split
    · split_ifs <;> norm_num
    · norm_num
  · norm_num
  · norm_num

/-- Every per-interval verdict is `Y` or `N`. -/
lemma mem_slaVals {thr : Int} {g : IncidentGroup} {n : Nat} {v : String}
    (h : v ∈ slaVals thr g n) : v = "Y" ∨ v = "N" := by
  unfold slaVals at h
  rcases List.mem_filterMap.mp h with ⟨i, _, hi⟩
  rcases hp : prevEndpoint g i with _ | a <;> rcases hc : currEndpoint g i with _ | b <;>
    rw [hp, hc] at hi <;> simp at hi
  split_ifs at hi <;> simp_all

/-- A `pDigitMatch` hit exposes the first two characters of the label. -/
lemma pDigitMatch_shape {l : List Char} {c : Char} (h : pDigitMatch l = some c) :
    ∃ rest, l = 'P' :: c :: rest := by
  unfold pDigitMatch at h
  split at h
  · split_ifs at h
    rename_i heq _
    cases h
    exact ⟨_, rfl⟩
  · cases h

/-- An empty or missing interval slot has empty interval and SLA cells. -/
lemma slotOf_empty (tz thr : Int) (g : IncidentGroup) (i : Nat)
    (h : prevEndpoint g i = none ∨ currEndpoint g i = none) :
    (slotOf tz thr g i).intervalText = "" ∧ (slotOf tz thr g i).slaText = "" := by
  unfold slotOf
  rcases hp : prevEndpoint g i with _ | a <;> rcases hc : currEndpoint g i with _ | b <;>
    simp_all

/-! ## Concrete instances used by witnesses and counterexamples -/

/-- A degenerate host `Date.parse` that accepts nothing (a valid instance of
the implementation-defined fallback). -/
def dpNone : String → Option Int := fun _ => none

/-! ## Claim C6 -/

/-- Claim C6: the aggregate `Made SLA` verdict of an incident is `N` (Fail)
as soon as one per-interval verdict is `N`, `Y` (Pass) when there is at least
one per-interval verdict and none is `N`, and empty (Undetermined) when no
interval was computed. -/
theorem claim_C6 (tz : Int) (g : IncidentGroup) (n : Nat) :
    ("N" ∈ slaVals (priorityThresholdMs g.priority) g n →
        (buildRow tz n g).madeSLA = "N") ∧
    (slaVals (priorityThresholdMs g.priority) g n ≠ [] →
        "N" ∉ slaVals (priorityThresholdMs g.priority) g n →
        (buildRow tz n g).madeSLA = "Y") ∧
    (slaVals (priorityThresholdMs g.priority) g n = [] →
        (buildRow tz n g).madeSLA = "") := by
  set vs := slaVals (priorityThresholdMs g.priority) g n with hvs
  have hb : (buildRow tz n g).madeSLA = aggVerdict vs := rfl
  refine ⟨fun hN => ?_, fun hne hnN => ?_, fun hnil => ?_⟩
  · have hne : vs ≠ [] := List.ne_nil_of_mem hN
    have hall : vs.all (fun v => v = "Y") = false := by
      by_contra hcon
      have := List.all_eq_true.mp (eq_true_of_ne_false (fun h => hcon h)) _ hN
      simp at this
    have hany : vs.any (fun v => v = "N") = true :=
      List.any_eq_true.mpr ⟨"N", hN, by simp⟩
    rw [hb]
    unfold aggVerdict
    rw [if_neg hne, hall, hany]
    simp
  · have hall : vs.all (fun v => v = "Y") = true := by
      refine List.all_eq_true.mpr fun v hv => ?_
      rcases mem_slaVals (hvs ▸ hv) with h | h
      · simp [h]
      · exact absurd (h ▸ hv) hnN
    rw [hb]
    unfold aggVerdict
    rw [if_neg hne, hall]
    simp
  · rw [hb, hnil]
    rfl

/-- An incident whose computed interval verdicts are `[Y, N, Y]`. -/
def gC6 : IncidentGroup :=
  { number := "INC6", priority := .str "P1", state := .str "New"
    openedDate := some 0
    updates :=
      [⟨.str "u1", some 1000⟩, ⟨.str "u2", some 7200000⟩, ⟨.str "u3", some 9000000⟩] }

/-- Witness for C6: a `[Pass, Fail, Pass]` incident aggregates to Fail. -/
theorem claim_C6_witness :
    "N" ∈ slaVals (priorityThresholdMs gC6.priority) gC6 3 ∧
    (buildRow 0 3 gC6).madeSLA = "N" :=
  ⟨by decide, (claim_C6 0 gC6 3).1 (by decide)⟩

/-! ## Claim C10 -/

/-- Claim C10: an interval whose endpoints both resolve but run backwards
(current before previous) is classified `Y` (Pass) no matter how large the
absolute elapsed time is — the raw signed difference is compared against the
threshold, while only the displayed duration takes the absolute value. -/
theorem claim_C10 (tz : Int) (g : IncidentGroup) (i : Nat) (p c : Int)
    (hp : prevEndpoint g i = some p) (hc : currEndpoint g i = some c)
    (hlt : c < p) :
    (slotOf tz (priorityThresholdMs g.priority) g i).slaText = "Y" ∧
    (slotOf tz (priorityThresholdMs g.priority) g i).intervalText =
      formatInterval (p - c) := by
  have hthr := priorityThresholdMs_pos g.priority
  have hle : c - p ≤ priorityThresholdMs g.priority := by omega
  have habs : formatInterval (c - p) = formatInterval (p - c) := by
    unfold formatInterval
    have : (c - p).natAbs = (p - c).natAbs := by omega
    rw [this]
  unfold slotOf
  rw [hp, hc]
  simp only [if_pos hle]
  exact ⟨trivial, habs⟩

/-- An incident whose only update predates its opened timestamp by 100 hours. -/
def gC10 : IncidentGroup :=
  { number := "INC10", priority := .str "P1", state := .str "New"
    openedDate := some 360000000000
    updates := [⟨.str "u1", some 0⟩] }

/-- Witness for C10: a backwards interval of 100 000 hours still passes a
1-hour SLA. -/
theorem claim_C10_witness :
    prevEndpoint gC10 0 = some 360000000000 ∧
    currEndpoint gC10 0 = some 0 ∧
    (0 : Int) < 360000000000 ∧
    (slotOf 0 (priorityThresholdMs gC10.priority) gC10 0).slaText = "Y" :=
  ⟨rfl, rfl, by norm_num,
    (claim_C10 0 gC10 0 360000000000 0 rfl rfl (by norm_num)).1⟩

/-! ## Claim C5 -/

/-- A string whose character list starts with the two characters of `pre`
satisfies `startsWithS`. -/
lemma startsWithS_of_toList {s pre : String} {rest : List Char}
    (h : s.toList = pre.toList ++ rest) : startsWithS s pre = true := by
  unfold startsWithS
  rw [h]
  exact List.isPrefixOf_iff_prefix.mpr ⟨rest, rfl⟩

/-- Counterexample for C5: the label `" P1"` does not begin with `P1`–`P4`
(it begins with a space), yet `priorityThresholdMs` returns 1 hour, not the
claimed 8-hour default — the code matches on the *trimmed* label. -/
theorem claim_C5_cex :
    priorityThresholdMs (.str " P1") = 3600000 ∧
    startsWithS (upperS " P1") "P1" = false ∧
    startsWithS (upperS " P1") "P2" = false ∧
    startsWithS (upperS " P1") "P3" = false ∧
    startsWithS (upperS " P1") "P4" = false ∧
    (3600000 : Int) ≠ 8 * 3600 * 1000 := by
  refine ⟨by decide, by decide, by decide, by decide, by decide, by norm_num⟩

/-- Claim C5 (amended): `priorityThresholdMs` agrees everywhere with the
spec table keyed on a case-insensitive prefix of the **trimmed** label —
trimmed labels starting with `P1`/`P2`/`P3`/`P4` give 1h/3h/4h/8h, and every
other label (and every missing or non-string label) gives 8h. -/
theorem claim_C5_amended (p : CellVal) : priorityThresholdMs p = thresholdForSpec p := by
  rcases p with _ | s | q | d <;> try rfl
  simp only [priorityThresholdMs, thresholdForSpec]
  by_cases hs : s = ""
  · subst hs
    decide
  · rw [if_neg hs]
    split_ifs with h1 h2 h3 h4 <;> try rfl
    cases hm : pDigitMatch (upperS (jsTrim s)).toList with
    | none => rfl
    | some c =>
      obtain ⟨rest, hrest⟩ := pDigitMatch_shape hm
      show (if c = '1' then 1 * 3600 * 1000
        else if c = '2' then 3 * 3600 * 1000
        else if c = '3' then 4 * 3600 * 1000
        else if c = '4' then 8 * 3600 * 1000
        else (8 * 3600 * 1000 : Int)) = 8 * 3600 * 1000
      split_ifs with hc1 hc2 hc3 hc4 <;> try rfl
      · exact absurd (@startsWithS_of_toList _ "P1" _ (by rw [hrest, hc1]; rfl)) h1
      · exact absurd (@startsWithS_of_toList _ "P2" _ (by rw [hrest, hc2]; rfl)) h2
      · exact absurd (@startsWithS_of_toList _ "P3" _ (by rw [hrest, hc3]; rfl)) h3

/-! ## Claim C9 -/

/-- Claim C9: `parseToDate` is total — every cell yields a timestamp or
`none`, a string matching neither the strict pattern nor the fallback parser
yields `none`, and unparsable values do not abort processing: every grouped
incident still gets an output row. -/
theorem claim_C9 (tz : Int) (dp : String → Option Int) :
    (∀ v : CellVal, parseToDate tz dp v = none ∨ ∃ t, parseToDate tz dp v = some t) ∧
    (∀ s : String, strictParse tz (jsTrim s) = none →
        dp (replaceFirstSpace (jsTrim s)) = none →
        parseToDate tz dp (.str s) = none) ∧
    (∀ rows : List RawRecord, rows ≠ [] →
        (processRows tz dp rows).data.length = (incidentsOf tz dp rows).length) := by
  refine ⟨fun v => ?_, fun s h1 h2 => ?_, fun rows hne => ?_⟩
  · cases h : parseToDate tz dp v
    · exact Or.inl rfl
    · exact Or.inr ⟨_, rfl⟩
  · simp only [parseToDate]
    by_cases hs : s = ""
    · rw [if_pos hs]
    · rw [if_neg hs, h1, h2]
  · unfold processRows
    rw [if_neg hne]
    exact List.length_map _ _

/-- Witness for C9: the string `"not a date"` parses to `none` under a host
fallback that accepts nothing, concretely. -/
theorem claim_C9_witness :
    strictParse 0 (jsTrim "not a date") = none ∧
    parseToDate 0 dpNone (.str "not a date") = none :=
  ⟨by decide, (claim_C9 0 dpNone).2.1 "not a date" (by decide) rfl⟩

/-! ## Claim C4 -/

/-- Counterexample for C4: the same parsed serial (`25570`, i.e. 1970-01-02
00:00 UTC) renders different wall-clock fields under different environment
offsets — `excelSerialToDate` wraps the epoch value directly and the
rendered local fields *are* shifted by the environment's timezone, contrary
to the claimed calendar-field reconstruction. -/
theorem claim_C4_cex :
    parseToDate 0 dpNone (.num 25570) = some 86400000 ∧
    parseToDate 3600000 dpNone (.num 25570) = some 86400000 ∧
    formatIso 0 86400000 = "1970-01-02 00:00:00" ∧
    formatIso 3600000 86400000 = "1970-01-02 01:00:00" ∧
    ("1970-01-02 00:00:00" : String) ≠ "1970-01-02 01:00:00" := by
  refine ⟨?_, ?_, rfl, rfl, by decide⟩ <;>
  · simp only [parseToDate, excelSerialToDate, truncQ]
    norm_num

/-- Claim C4 (amended): for every numeric spreadsheet serial `s` in the valid
`Date` range, `parseToDate` converts it to exactly
`(s − 25569) × 86 400 000` milliseconds from the Unix epoch (truncated to an
integer), wrapped directly in a `Date` with no calendar-field
reconstruction. -/
theorem claim_C4_amended (s : ℚ)
    (h : |(s - 25569) * 86400000| ≤ 8640000000000000)
    (tz : Int) (dp : String → Option Int) :
    parseToDate tz dp (.num s) = some (truncQ ((s - 25569) * 86400000)) := by
  simp only [parseToDate, excelSerialToDate]
  rw [if_pos h]

/-- Witness for C4: serial 45000 converts to epoch ms 1 678 838 400 000. -/
theorem claim_C4_witness :
    |((45000 : ℚ) - 25569) * 86400000| ≤ 8640000000000000 ∧
    parseToDate 0 dpNone (.num 45000) = some 1678838400000 := by
  refine ⟨by norm_num, ?_⟩
  rw [claim_C4_amended 45000 (by norm_num) 0 dpNone]
  simp only [truncQ]
  norm_num

/-! ## Counting lemmas for the compliance aggregation -/

/-- `getBucket` at the four canonical labels. -/
lemma getBucket_p1 (acc : AllCounts) : getBucket acc "P1 - Critical" = acc.p1 := rfl

lemma getBucket_p2 (acc : AllCounts) : getBucket acc "P2 - High" = acc.p2 := rfl

lemma getBucket_p3 (acc : AllCounts) : getBucket acc "P3 - Medium" = acc.p3 := rfl

lemma getBucket_p4 (acc : AllCounts) : getBucket acc "P4 - Low" = acc.p4 := rfl

/-- One counting step only bumps the `P1 - Critical` bucket of a row
assigned to it. -/
lemma countStep_gb1 (acc : AllCounts) (r : OutRow) :
    (countStep acc r).p1 =
      if bucketOf r = some "P1 - Critical" then bumpPC acc.p1 (madeFlag r)
      else acc.p1 := by
  unfold countStep bumpCounts
  cases hb : bucketOf r with
  | none => simp
  | some b =>
      simp only [Option.some.injEq]
      by_cases hk : b = "P1 - Critical"
      · subst hk
        rw [if_pos rfl, if_pos rfl]
      · rw [if_neg hk, if_neg hk]
        split_ifs <;> rfl

/-- One counting step only bumps the `P2 - High` bucket of a row assigned
to it. -/
lemma countStep_gb2 (acc : AllCounts) (r : OutRow) :
    (countStep acc r).p2 =
      if bucketOf r = some "P2 - High" then bumpPC acc.p2 (madeFlag r)
      else acc.p2 := by
  unfold countStep bumpCounts
  cases hb : bucketOf r with
  | none => simp
  | some b =>
      simp only [Option.some.injEq]
      by_cases hk : b = "P2 - High"
      · subst hk
        rw [if_neg (by decide), if_pos rfl, if_pos rfl]
      · rw [if_neg hk]
        split_ifs <;> rfl

/-- One counting step only bumps the `P3 - Medium` bucket of a row assigned
to it. -/
lemma countStep_gb3 (acc : AllCounts) (r : OutRow) :
    (countStep acc r).p3 =
      if bucketOf r = some "P3 - Medium" then bumpPC acc.p3 (madeFlag r)
      else acc.p3 := by
  unfold countStep bumpCounts
  cases hb : bucketOf r with
  | none => simp
  | some b =>
      simp only [Option.some.injEq]
      by_cases hk : b = "P3 - Medium"
      · subst hk
        rw [if_neg (by decide), if_neg (by decide), if_pos rfl, if_pos rfl]
      · rw [if_neg hk]
        split_ifs <;> rfl

/-- One counting step only bumps the `P4 - Low` bucket of a row assigned
to it. -/
lemma countStep_gb4 (acc : AllCounts) (r : OutRow) :
    (countStep acc r).p4 =
      if bucketOf r = some "P4 - Low" then bumpPC acc.p4 (madeFlag r)
      else acc.p4 := by
  unfold countStep bumpCounts
  cases hb : bucketOf r with
  | none => simp
  | some b =>
      simp only [Option.some.injEq]
      by_cases hk : b = "P4 - Low"
      · subst hk
        rw [if_neg (by decide), if_neg (by decide), if_neg (by decide),
          if_pos rfl, if_pos rfl]
      · rw [if_neg hk]
        split_ifs <;> rfl

/-- Folding the counting step accumulates, per bucket, exactly the spec-side
within/exceeding/total counts. -/
lemma foldl_gb (pb : AllCounts → PCounts) (p : String)
    (hstep : ∀ acc r, pb (countStep acc r) =
      if bucketOf r = some p then bumpPC (pb acc) (madeFlag r) else pb acc) :
    ∀ (rows : List OutRow) (acc : AllCounts),
      pb (rows.foldl countStep acc) =
        { y := (pb acc).y + withinCountSpec rows p
          n := (pb acc).n + exceedCountSpec rows p
          total := (pb acc).total + totalCountSpec rows p } := by
  intro rows
  induction rows with
  | nil =>
      intro acc
      simp [withinCountSpec, exceedCountSpec, totalCountSpec]
  | cons r t ih =>
      intro acc
      rw [List.foldl_cons, ih, hstep]
      unfold withinCountSpec exceedCountSpec totalCountSpec
      rw [List.countP_cons, List.countP_cons, List.countP_cons]
      by_cases hb : bucketOf r = some p
      · rw [if_pos hb]
        unfold bumpPC
        by_cases hm : madeFlag r = "Y"
        · rw [if_pos hm]
          simp only [hb, hm, PCounts.mk.injEq]
          refine ⟨?_, ?_, ?_⟩ <;> simp <;> omega
        · rw [if_neg hm]
          by_cases hn : madeFlag r = "N"
          · rw [if_pos hn]
            simp only [hb, hm, hn, PCounts.mk.injEq]
            refine ⟨?_, ?_, ?_⟩ <;> simp [hm] <;> omega
          · rw [if_neg hn]
            simp only [hb, hm, hn, PCounts.mk.injEq]
            refine ⟨?_, ?_, ?_⟩ <;> simp [hm, hn] <;> omega
      · rw [if_neg hb]
        simp only [hb, PCounts.mk.injEq]
        refine ⟨?_, ?_, ?_⟩ <;> simp [hb] <;> omega

/-- The `P1` counters equal the spec-side counts. -/
lemma countsOf_p1 (rows : List OutRow) :
    (countsOf rows).p1 =
      { y := withinCountSpec rows "P1 - Critical"
        n := exceedCountSpec rows "P1 - Critical"
        total := totalCountSpec rows "P1 - Critical" } := by
  have h := foldl_gb (fun a => a.p1) "P1 - Critical" countStep_gb1 rows acZero
  simpa [countsOf, acZero, pcZero] using h

/-- The `P2` counters equal the spec-side counts. -/
lemma countsOf_p2 (rows : List OutRow) :
    (countsOf rows).p2 =
      { y := withinCountSpec rows "P2 - High"
        n := exceedCountSpec rows "P2 - High"
        total := totalCountSpec rows "P2 - High" } := by
  have h := foldl_gb (fun a => a.p2) "P2 - High" countStep_gb2 rows acZero
  simpa [countsOf, acZero, pcZero] using h

/-- The `P3` counters equal the spec-side counts. -/
lemma countsOf_p3 (rows : List OutRow) :
    (countsOf rows).p3 =
      { y := withinCountSpec rows "P3 - Medium"
        n := exceedCountSpec rows "P3 - Medium"
        total := totalCountSpec rows "P3 - Medium" } := by
  have h := foldl_gb (fun a => a.p3) "P3 - Medium" countStep_gb3 rows acZero
  simpa [countsOf, acZero, pcZero] using h

/-- The `P4` counters equal the spec-side counts. -/
lemma countsOf_p4 (rows : List OutRow) :
    (countsOf rows).p4 =
      { y := withinCountSpec rows "P4 - Low"
        n := exceedCountSpec rows "P4 - Low"
        total := totalCountSpec rows "P4 - Low" } := by
  have h := foldl_gb (fun a => a.p4) "P4 - Low" countStep_gb4 rows acZero
  simpa [countsOf, acZero, pcZero] using h

/-- The four bucket totals partition the bucketed rows: their sum is the
grand total incident count. -/
lemma sum_totalCount (rows : List OutRow) :
    totalCountSpec rows "P1 - Critical" + totalCountSpec rows "P2 - High" +
      totalCountSpec rows "P3 - Medium" + totalCountSpec rows "P4 - Low" =
      grandCountSpec rows := by
  unfold totalCountSpec grandCountSpec
  induction rows with
  | nil => rfl
  | cons r t ih =>
      rw [List.countP_cons, List.countP_cons, List.countP_cons, List.countP_cons,
        List.countP_cons]
      cases hb : bucketOf r with
      | none => simp [hb]; omega
      | some b =>
          have hb2 : prioritiesList.find?
              (fun pp => startsWithS (upperS (prOf r)) (upperS (headTok pp))) = some b := by
            have := hb
            unfold bucketOf at this
            exact this
          have hmem : b ∈ prioritiesList := List.mem_of_find?_eq_some hb2
          simp only [prioritiesList, List.mem_cons, List.not_mem_nil, or_false] at hmem
          rcases hmem with h | h | h | h <;> subst h <;> simp [hb] <;> omega

/-- The grand total of the fold equals the spec-side grand count. -/
lemma totalsOf_total (rows : List OutRow) :
    (totalsOf (countsOf rows)).total = grandCountSpec rows := by
  unfold totalsOf
  simp only [countsOf_p1, countsOf_p2, countsOf_p3, countsOf_p4]
  exact sum_totalCount rows

/-! ## Claim C1 -/

/-- Claim C1: when the grand total incident count over all four buckets is
nonzero, each bucket's percentage-within-SLA cell shows the bucket's
within-SLA count divided by the grand total across all buckets (not the
bucket's own total), times 100, rounded to one decimal. -/
theorem claim_C1 (rows : List OutRow) (h : grandCountSpec rows ≠ 0)
    (p : String) (hp : p ∈ prioritiesList) :
    ∃ cr ∈ complianceRows rows, cr.label = p ∧
      cr.pct = pctString (roundTenths (withinCountSpec rows p) (grandCountSpec rows)) := by
  have htot := totalsOf_total rows
  have hpos : 0 < (totalsOf (countsOf rows)).total := by rw [htot]; omega
  have hy : (getBucket (countsOf rows) p).y = withinCountSpec rows p := by
    simp only [prioritiesList, List.mem_cons, List.not_mem_nil, or_false] at hp
    rcases hp with h1 | h1 | h1 | h1 <;> subst h1 <;>
      simp [getBucket_p1, getBucket_p2, getBucket_p3, getBucket_p4,
        countsOf_p1, countsOf_p2, countsOf_p3, countsOf_p4]
  refine ⟨bucketRow (countsOf rows) (totalsOf (countsOf rows)) p, ?_, rfl, ?_⟩
  · show _ ∈ prioritiesList.map (bucketRow (countsOf rows) (totalsOf (countsOf rows))) ++
      [totalRowOf (totalsOf (countsOf rows))]
    exact List.mem_append_left _ (List.mem_map_of_mem _ hp)
  · show (if 0 < (totalsOf (countsOf rows)).total then
        pctString (roundTenths (getBucket (countsOf rows) p).y
          (totalsOf (countsOf rows)).total)
      else "") = _
    rw [if_pos hpos, hy, htot]

/-- The compliance example rows: buckets P1(2 rows, 1 within), P2(2, 2),
P3(2, 0), P4(0). -/
def exCompRows : List OutRow :=
  [{ number := "I1", priority := .str "P1 - Critical", state := .str "S",
     openedDateStr := "", slots := [], madeSLA := "Y" },
   { number := "I2", priority := .str "P1 - Critical", state := .str "S",
     openedDateStr := "", slots := [], madeSLA := "N" },
   { number := "I3", priority := .str "P2 - High", state := .str "S",
     openedDateStr := "", slots := [], madeSLA := "Y" },
   { number := "I4", priority := .str "P2 - High", state := .str "S",
     openedDateStr := "", slots := [], madeSLA := "Y" },
   { number := "I5", priority := .str "P3 - Medium", state := .str "S",
     openedDateStr := "", slots := [], madeSLA := "N" },
   { number := "I6", priority := .str "P3 - Medium", state := .str "S",
     openedDateStr := "", slots := [], madeSLA := "N" }]

/-- Witness for C1: on the example dataset the P1 bucket shows 1/6 = 16.7%
and the P2 bucket 2/6 = 33.3%, each normalized by the grand total 6. -/
theorem claim_C1_witness :
    grandCountSpec exCompRows ≠ 0 ∧
    pctString (roundTenths (withinCountSpec exCompRows "P1 - Critical")
      (grandCountSpec exCompRows)) = "16.7%" ∧
    pctString (roundTenths (withinCountSpec exCompRows "P2 - High")
      (grandCountSpec exCompRows)) = "33.3%" ∧
    (∃ cr ∈ complianceRows exCompRows, cr.label = "P1 - Critical" ∧
      cr.pct = pctString (roundTenths (withinCountSpec exCompRows "P1 - Critical")
        (grandCountSpec exCompRows))) :=
  ⟨by decide, by decide, by decide,
    claim_C1 exCompRows (by decide) "P1 - Critical" (by decide)⟩

/-! ## Claim C2 -/

/-- Counterexample for C2: on the example dataset the final `Total` row's
percentage cell is `"50.0%"`, not empty — the Total row does carry a
percentage. -/
theorem claim_C2_cex :
    ((complianceRows exCompRows).getLast?).map (fun cr => cr.pct) = some "50.0%" ∧
    ("50.0%" : String) ≠ "" := by
  exact ⟨by decide, by decide⟩

/-- Claim C2 (amended): the final `Total` row of the compliance summary sums
total, within-SLA and exceeding-SLA over the four bucket rows and carries no
compliance flag, but it does carry a percentage: the overall within-SLA
percentage (within(all)/total(all) × 100 rounded to one decimal, rendered as
`0.0%` when the grand total is zero). -/
theorem claim_C2_amended (rows : List OutRow) :
    ∃ r1 r2 r3 r4 tot, complianceRows rows = [r1, r2, r3, r4, tot] ∧
      tot.label = "Total" ∧
      tot.total = r1.total + r2.total + r3.total + r4.total ∧
      tot.within = r1.within + r2.within + r3.within + r4.within ∧
      tot.exceeding = r1.exceeding + r2.exceeding + r3.exceeding + r4.exceeding ∧
      tot.flag = "" ∧
      tot.pct = (if 0 < tot.total then pctString (roundTenths tot.within tot.total)
                 else pctString 0) :=
  ⟨_, _, _, _, _, rfl, rfl, rfl, rfl, rfl, rfl, rfl⟩

/-! ## Claim C7 -/

/-- Claim C7: every output row carries exactly `maxWidth` interval slots
(the dataset-wide fan-out), and any slot beyond the incident's own update
count — or whose endpoints are missing or unparsed — is present with empty
interval and SLA cells, never omitted. -/
theorem claim_C7 (tz : Int) (dp : String → Option Int) (rows : List RawRecord) :
    ∀ r ∈ (processRows tz dp rows).data,
      r.slots.length = maxUpdatesOf (incidentsOf tz dp rows) ∧
      ∃ g ∈ incidentsOf tz dp rows,
        r = buildRow tz (maxUpdatesOf (incidentsOf tz dp rows)) g ∧
        (∀ i (hi : i < r.slots.length), g.updates.length ≤ i →
          (r.slots[i].intervalText = "" ∧ r.slots[i].slaText = "")) ∧
        (∀ i (hi : i < r.slots.length),
          prevEndpoint g i = none ∨ currEndpoint g i = none →
          (r.slots[i].intervalText = "" ∧ r.slots[i].slaText = "")) := by
  intro r hr
  by_cases hrows : rows = []
  · subst hrows
    simp [processRows] at hr
  · unfold processRows at hr
    rw [if_neg hrows] at hr
    dsimp only at hr
    obtain ⟨g, hg, rfl⟩ := List.mem_map.mp hr
    have hlen : (buildRow tz (maxUpdatesOf (incidentsOf tz dp rows)) g).slots.length =
        maxUpdatesOf (incidentsOf tz dp rows) := by
      simp [buildRow]
    have hget : ∀ i (hi : i < (buildRow tz (maxUpdatesOf (incidentsOf tz dp rows)) g).slots.length),
        (buildRow tz (maxUpdatesOf (incidentsOf tz dp rows)) g).slots[i] =
          slotOf tz (priorityThresholdMs g.priority) g i := by
      intro i hi
      simp [buildRow]
    refine ⟨hlen, g, hg, rfl, fun i hi hk => ?_, fun i hi hmiss => ?_⟩
    · have hc : currEndpoint g i = none := by
        unfold currEndpoint
        rw [List.get?_eq_none.mpr hk]
      rw [hget i hi]
      exact slotOf_empty tz (priorityThresholdMs g.priority) g i (Or.inr hc)
    · rw [hget i hi]
      exact slotOf_empty tz (priorityThresholdMs g.priority) g i hmiss

/-- The end-to-end example input for C7: two incidents, one with two update
events and one with none. -/
def exPipeRows : List RawRecord :=
  [⟨[("Number", .str "INC1"), ("Priority", .str "P2"), ("State", .str "New"),
     ("Opened", .str "01-01-2024 08:00"),
     ("Updated", .str "01-01-2024 09:00; 01-01-2024 11:30")]⟩,
   ⟨[("Number", .str "INC2"), ("Priority", .str "P1"), ("State", .str "New"),
     ("Opened", .str "02-01-2024 08:00"), ("Updated", .str "")]⟩]

/-- The output row of the update-less incident `INC2`: both fanned-out slots
are present and empty. -/
def exRowINC2 : OutRow :=
  { number := "INC2", priority := .str "P1", state := .str "New"
    openedDateStr := "2024-01-02 08:00:00"
    slots := [{ updText := "", intervalText := "", slaText := "" },
              { updText := "", intervalText := "", slaText := "" }]
    madeSLA := "" }

/-- Witness for C7: in the example dataset the incident with zero update
events still gets a row with `maxWidth = 2` interval slots. -/
theorem claim_C7_witness :
    exRowINC2 ∈ (processRows 0 dpNone exPipeRows).data ∧
    exRowINC2.slots.length = maxUpdatesOf (incidentsOf 0 dpNone exPipeRows) :=
  ⟨by decide, (claim_C7 0 dpNone exPipeRows exRowINC2 (by decide)).1⟩

/-! ## Claim C8 -/

/-- Claim C8: after grouping, every incident's update-event sequence is
pairwise ordered: parsed events ascending by timestamp, every unparsable
event after all parsed ones, and unparsable events among themselves by
lexicographic comparison of their raw text. -/
theorem claim_C8 (tz : Int) (dp : String → Option Int) (rows : List RawRecord)
    (g : IncidentGroup) (hg : g ∈ incidentsOf tz dp rows) :
    g.updates.Pairwise (fun a b =>
      match a.date, b.date with
      | some x, some y => x ≤ y
      | some _, none => True
      | none, some _ => False
      | none, none => strLexLe (cellToString a.raw) (cellToString b.raw) = true) := by
  unfold incidentsOf at hg
  obtain ⟨e, he, rfl⟩ := List.mem_map.mp hg
  have hs : (sortUpdates tz dp e.2.updatedCands).Pairwise updLe :=
    List.sorted_insertionSort updLe _
  refine hs.imp ?_
  intro a b hab
  unfold updLe updLeB at hab
  rcases ha : a.date with _ | x <;> rcases hb : b.date with _ | y <;>
    rw [ha, hb] at hab <;> simp_all

/-- A record whose `Updated` cell mixes parsable timestamps and garbage, in
scrambled order. -/
def exRowsC8 : List RawRecord :=
  [⟨[("Number", .str "INC8"), ("Priority", .str "P3"), ("State", .str "New"),
     ("Opened", .str "01-01-2024 08:00"),
     ("Updated", .str "zzz; 02-01-2024 10:00; aaa; 01-01-2024 09:00")]⟩]

/-- The grouped incident of `exRowsC8`: parsed events first in time order,
then the unparsable ones in lexicographic raw order. -/
def gC8 : IncidentGroup :=
  { number := "INC8", priority := .str "P3", state := .str "New"
    openedDate := some 1704096000000
    updates :=
      [⟨.str "01-01-2024 09:00", some 1704099600000⟩,
       ⟨.str "02-01-2024 10:00", some 1704189600000⟩,
       ⟨.str "aaa", none⟩, ⟨.str "zzz", none⟩] }

/-- Witness for C8: the scrambled input groups into the expected ordered
sequence, which is pairwise ordered as claimed. -/
theorem claim_C8_witness :
    gC8 ∈ incidentsOf 0 dpNone exRowsC8 ∧
    gC8.updates.Pairwise (fun a b =>
      match a.date, b.date with
      | some x, some y => x ≤ y
      | some _, none => True
      | none, some _ => False
      | none, none => strLexLe (cellToString a.raw) (cellToString b.raw) = true) :=
  ⟨by decide, claim_C8 0 dpNone exRowsC8 gC8 (by decide)⟩

/-! ## Claim C3 -/

/-- The stored priority of the group keyed `num` in a grouping accumulator. -/
def prioLookup (l : List (String × GroupInfo)) (num : String) : Option CellVal :=
  (l.find? (fun e => e.1 = num)).map (fun e => e.2.priority)

/-- `find?` over a key-preserving entry map. -/
lemma find?_map_keylike (l : List (String × GroupInfo)) (num : String)
    (f : String × GroupInfo → String × GroupInfo)
    (hf : ∀ e, (f e).1 = e.1) :
    (l.map f).find? (fun e => e.1 = num) =
      (l.find? (fun e => e.1 = num)).map f := by
  rw [List.find?_map]
  have hp : ((fun e : String × GroupInfo => decide (e.1 = num)) ∘ f) =
      (fun e : String × GroupInfo => decide (e.1 = num)) := by
    funext e
    simp [Function.comp, hf]
  rw [hp]

/-- A grouping step for a different key leaves a key's priority unchanged. -/
lemma groupStep_prio_other (ks : ColKeys) (r : RawRecord) (num : String)
    (h : recNumber ks r ≠ num) (acc : List (String × GroupInfo)) :
    prioLookup (groupStep ks acc r) num = prioLookup acc num := by
  unfold groupStep
  by_cases h0 : recNumber ks r = ""
  · rw [if_pos h0]
  · rw [if_neg h0]
    unfold prioLookup
    rw [find?_map_keylike _ _ _ (fun e => by split <;> rfl)]
    have hfind : ((if acc.any (fun e => e.1 = recNumber ks r) then acc
          else acc ++ [(recNumber ks r, mkGroup ks r)]).find? (fun e => e.1 = num)) =
        acc.find? (fun e => e.1 = num) := by
      split
      · rfl
      · rw [List.find?_append]
        have : ([(recNumber ks r, mkGroup ks r)].find? (fun e => e.1 = num)) = none := by
          simp [h]
        rw [this]
        cases acc.find? (fun e => e.1 = num) <;> rfl
    rw [hfind]
    cases hres : acc.find? (fun e => e.1 = num) with
    | none => rfl
    | some e =>
        have he : e.1 = num := by simpa using List.find?_some hres
        have hne : ¬(e.1 = recNumber ks r) := by
          rw [he]
          exact fun hx => h hx.symm
        simp [hne]

/-- A grouping step for the key itself: an existing priority is preserved,
a fresh group takes this record's priority-or-empty. -/
lemma groupStep_prio_self (ks : ColKeys) (r : RawRecord) (num : String)
    (hnum : num ≠ "") (h : recNumber ks r = num) (acc : List (String × GroupInfo)) :
    prioLookup (groupStep ks acc r) num =
      (prioLookup acc num).orElse
        (fun _ => some (cellOrEmpty (getCell r ks.priority))) := by
  unfold groupStep
  rw [h, if_neg hnum]
  unfold prioLookup
  rw [find?_map_keylike _ _ _ (fun e => by split <;> rfl)]
  by_cases hany : acc.any (fun e => e.1 = num)
  · rw [if_pos hany]
    obtain ⟨e, he, hp⟩ := List.any_eq_true.mp hany
    cases hres : acc.find? (fun e => e.1 = num) with
    | none =>
        rw [List.find?_eq_none] at hres
        exact absurd hp (by simpa using hres e he)
    | some e0 =>
        have he0 : e0.1 = num := by simpa using List.find?_some hres
        simp [Option.orElse, he0, addCands]
  · rw [if_neg hany]
    have hfa : acc.find? (fun e => e.1 = num) = none := by
      rw [List.find?_eq_none]
      intro e he
      by_contra hcon
      exact hany (List.any_eq_true.mpr ⟨e, he, by simpa using hcon⟩)
    rw [List.find?_append, hfa]
    simp [Option.orElse, mkGroup, addCands]

/-- Folding the grouping step: the final priority for a key is the one
already stored, or else the priority of the first record bearing that key. -/
lemma prioLookup_foldl (ks : ColKeys) (num : String) (hnum : num ≠ "") :
    ∀ (rows : List RawRecord) (acc : List (String × GroupInfo)),
      prioLookup (rows.foldl (groupStep ks) acc) num =
        (prioLookup acc num).orElse
          (fun _ => (rows.find? (fun r => recNumber ks r = num)).map
            (fun r => cellOrEmpty (getCell r ks.priority))) := by
  intro rows
  induction rows with
  | nil =>
      intro acc
      rw [List.foldl_nil]
      cases prioLookup acc num <;> rfl
  | cons r t ih =>
      intro acc
      rw [List.foldl_cons, ih]
      by_cases h : recNumber ks r = num
      · rw [groupStep_prio_self ks r num hnum h acc,
          List.find?_cons_of_pos _ (by simpa using h)]
        cases prioLookup acc num <;> rfl
      · rw [groupStep_prio_other ks r num h acc,
          List.find?_cons_of_neg _ (by simpa using h)]

/-- Two records for one incident: the first with an empty priority cell, the
second with `P1`. -/
def exRowsC3 : List RawRecord :=
  [⟨[("Number", .str "INC1"), ("Priority", .str ""), ("State", .str "New"),
     ("Opened", .str ""), ("Updated", .str "")]⟩,
   ⟨[("Number", .str "INC1"), ("Priority", .str "P1"), ("State", .str "New"),
     ("Opened", .str ""), ("Updated", .str "")]⟩]

/-- Counterexample for C3: with an empty first priority and a non-empty
second one, the stored incident priority is the empty string — not the first
non-empty value `P1` the claim requires. -/
theorem claim_C3_cex :
    groupPriorityOf 0 dpNone exRowsC3 "INC1" = some (.str "") ∧
    firstNonEmptyPrioritySpec (resolveKeys exRowsC3) exRowsC3 "INC1" =
      some (.str "P1") ∧
    (CellVal.str "" : CellVal) ≠ .str "P1" := by
  exact ⟨by decide, by decide, by decide⟩

/-- Claim C3 (amended): an incident's priority equals the priority cell of
the **first** record (in input order) bearing its number, with a missing or
falsy cell coerced to the empty string — later records never contribute,
whether or not the first value was empty. -/
theorem claim_C3_amended (tz : Int) (dp : String → Option Int)
    (rows : List RawRecord) (num : String) (hnum : num ≠ "") :
    groupPriorityOf tz dp rows num =
      (rows.find? (fun r => recNumber (resolveKeys rows) r = num)).map
        (fun r => cellOrEmpty (getCell r (resolveKeys rows).priority)) := by
  have hmain := prioLookup_foldl (resolveKeys rows) num hnum rows []
  have hconn : groupPriorityOf tz dp rows num =
      prioLookup (groupFold (resolveKeys rows) rows) num := by
    unfold groupPriorityOf incidentsOf prioLookup
    rw [List.find?_map]
    have hp : ((fun g : IncidentGroup => decide (g.number = num)) ∘
        (fun e : String × GroupInfo =>
          ({ number := e.1, priority := e.2.priority, state := e.2.state
             openedDate := pickOpened tz dp e.2.openedCands
             updates := sortUpdates tz dp e.2.updatedCands } : IncidentGroup))) =
        (fun e : String × GroupInfo => decide (e.1 = num)) := by
      funext e
      rfl
    rw [hp, Option.map_map]
    rfl
  rw [hconn]
  unfold groupFold
  rw [hmain]
  rfl

/-- Witness for C3 (amended): on the two-record input the group's priority
is exactly the first record's (empty) priority cell. -/
theorem claim_C3_witness :
    ("INC1" : String) ≠ "" ∧
    groupPriorityOf 0 dpNone exRowsC3 "INC1" =
      (exRowsC3.find? (fun r => recNumber (resolveKeys exRowsC3) r = "INC1")).map
        (fun r => cellOrEmpty (getCell r (resolveKeys exRowsC3).priority)) :=
  ⟨by decide, claim_C3_amended 0 dpNone exRowsC3 "INC1" (by decide)⟩
